import Mathlib

/-!
Shallow embedding of the rating-calculation engine of the wc_report_rating
repository.  Numbers are modelled as exact rationals (`ℚ`); Python's
`round(x, n)` (round half to even on the scaled value) is modelled by
`roundTo`.  Database queries are modelled as pure lookups over explicit
row lists passed as parameters; the SQL `WHERE key <= t ORDER BY key DESC
LIMIT 1` / `ORDER BY key ASC LIMIT 1` pattern is modelled by `floorRow`.
-/

/-- Round half to even: the integer nearest to `x`, ties going to the even
integer.  Models Python's built-in `round` on exact decimal values. -/
def rnd (x : ℚ) : ℤ :=
  let f := ⌊x⌋
  let r := x - f
  if r < 1/2 then f
  else if 1/2 < r then f + 1
  else if f % 2 = 0 then f else f + 1

/-- Python's `round(x, n)`: round to `n` decimal places, half to even. -/
def roundTo (n : ℕ) (x : ℚ) : ℚ :=
  (rnd (x * (10 : ℚ) ^ n) : ℚ) / (10 : ℚ) ^ n

/-- Embedding of `src/utils/calculations.py`, `combine_two_values`: CVC formula
`C = A + B(1-A/100)` with `A = max a b`, result rounded to 2 decimals. -/
def combine_two_values (a b : ℚ) : ℚ :=
  let A := max a b
  let B := min a b
  roundTo 2 (A + B * (1 - A / 100))

/-- Embedding of `src/utils/calculations.py`, `combine_wpi_values`: sort descending and
fold `combine_two_values` over the list. -/
def combine_wpi_values (l : List ℚ) : ℚ :=
  match l with
  | [] => 0
  | [x] => x
  | _ =>
    match l.insertionSort (fun a b => b ≤ a) with
    | [] => 0
    | v :: vs => vs.foldl combine_two_values v

/-- The closed-form combination law stated by the spec:
`100 × (1 − Π (1 − vᵢ/100))`. -/
def closedForm (l : List ℚ) : ℚ :=
  100 * (1 - (l.map (fun v => 1 - v / 100)).prod)

/-- Embedding of `src/utils/report_processor.py`, `calculate_payment_weeks`. -/
def calculate_payment_weeks (total_pd : ℚ) : ℚ :=
  if total_pd < 10 then total_pd * 4
  else if total_pd < 24.75 then total_pd * 5
  else if total_pd < 29.75 then total_pd * 6
  else if total_pd < 49.75 then total_pd * 7
  else if total_pd < 69.75 then total_pd * 8
  else if total_pd < 99.75 then total_pd * 9
  else total_pd * 9

/-- The tier multiplier exactly as the spec words it: `<10%→×4, <24.75%→×5,
<29.75%→×6, <49.75%→×7, <69.75%→×8`, otherwise `×9`. -/
def specTierMult (p : ℚ) : ℚ :=
  if p < 10 then 4
  else if p < 24.75 then 5
  else if p < 29.75 then 6
  else if p < 49.75 then 7
  else if p < 69.75 then 8
  else 9

/-! ## Table lookups (`src/utils/database.py`)

A table row is a key (the SQL `rating_percent` / `wpi_percent` column)
paired with its remaining columns, an association list from column name to
numeric cell. -/

/-- A row of the occupational-adjustment or age-adjustment table. -/
def TableRow : Type := ℚ × List (String × ℚ)

/-- Key of a row. -/
def TableRow.key (r : TableRow) : ℚ := r.1

/-- Columns of a row. -/
def TableRow.cols (r : TableRow) : List (String × ℚ) := r.2

instance : DecidableEq TableRow := by
  unfold TableRow
  infer_instance

/-- The query `SELECT * WHERE key <= t ORDER BY key DESC LIMIT 1`: the row with the
largest key that is `≤ t`, if any. -/
def argmaxLe (t : ℚ) : List TableRow → Option TableRow
  | [] => none
  | r :: rs =>
    match argmaxLe t rs with
    | none => if r.key ≤ t then some r else none
    | some b => if r.key ≤ t ∧ b.key < r.key then some r else some b

/-- The query `SELECT * ORDER BY key ASC LIMIT 1`: the row with the smallest key. -/
def argminRow : List TableRow → Option TableRow
  | [] => none
  | r :: rs =>
    match argminRow rs with
    | none => some r
    | some b => if r.key < b.key then some r else some b

/-- The row-selection pattern shared by `get_occupational_adjusted_wpi` and
`get_age_adjusted_wpi`: floor match on the key, falling back to the row
with the smallest key when every key exceeds the target. -/
def floorRow (rows : List TableRow) (t : ℚ) : Option TableRow :=
  match argmaxLe t rows with
  | some r => some r
  | none => argminRow rows

/-- Embedding of `src/utils/database.py`, `get_occupational_adjusted_wpi`: floor-match
`base_wpi` against `rating_percent`, then read the column named by the
lowercased variant letter.  An absent column is the code's
`Invalid variant label` error; an empty table is its
`No occupational adjustment found` error. -/
def get_occupational_adjusted_wpi (table : List TableRow) (variant_label : String)
    (base_wpi : ℚ) : Except String ℚ :=
  match floorRow table base_wpi with
  | none => Except.error "No occupational adjustment found"
  | some row =>
    match row.cols.lookup (String.mk (variant_label.data.map Char.toLower)) with
    | some v => Except.ok v
    | none => Except.error "Invalid variant label"

/-- The `age_ranges` dictionary of `get_age_adjusted_wpi`: half-open
integer ranges `start ≤ age < stop` paired with the column name. -/
def age_ranges : List ((ℤ × ℤ) × String) :=
  [((0, 22), "21_and_under"),
   ((22, 27), "22_to_26"),
   ((27, 32), "27_to_31"),
   ((32, 37), "32_to_36"),
   ((37, 42), "37_to_41"),
   ((42, 47), "42_to_46"),
   ((47, 52), "47_to_51"),
   ((52, 57), "52_to_56"),
   ((57, 62), "57_to_61"),
   ((62, 150), "62_and_over")]

/-- The age-bracket column chosen by `get_age_adjusted_wpi`:
`next(col for (start, end), col in age_ranges.items() if start <= age < end)`,
`none` when no range contains the age. -/
def ageColumn (age : ℤ) : Option String :=
  (age_ranges.find? fun p => decide (p.1.1 ≤ age) && decide (age < p.1.2)).map (·.2)

/-- Embedding of `src/utils/database.py`, `get_age_adjusted_wpi`: floor-match `raw_wpi`
against `wpi_percent`, then read the age-bracket column. -/
def get_age_adjusted_wpi (table : List TableRow) (age : ℤ) (raw_wpi : ℚ) :
    Except String ℚ :=
  match floorRow table raw_wpi with
  | none => Except.error "No data found in age adjustment table."
  | some row =>
    match ageColumn age with
    | none => Except.error "No age bracket found"
    | some col =>
      match row.cols.lookup col with
      | some v => Except.ok v
      | none => Except.error "Error applying age adjustment"

/-- The age brackets exactly as the spec words them: `≤21, 22–26, 27–31,
32–36, 37–41, 42–46, 47–51, 52–56, 57–61, ≥62`. -/
def specAgeBracket (age : ℤ) : String :=
  if age ≤ 21 then "21_and_under"
  else if age ≤ 26 then "22_to_26"
  else if age ≤ 31 then "27_to_31"
  else if age ≤ 36 then "32_to_36"
  else if age ≤ 41 then "37_to_41"
  else if age ≤ 46 then "42_to_46"
  else if age ≤ 51 then "47_to_51"
  else if age ≤ 56 then "52_to_56"
  else if age ≤ 61 then "57_to_61"
  else "62_and_over"

/-! ## String helpers

The source works over ASCII occupation titles and body-part labels; SQL
`LIKE '%x%'` and Python's `in` are modelled by contiguous-sublist search
over the character list. -/

/-- Predicate `leadsWith pat s`: `pat` is an initial segment of `s`. -/
def leadsWith : List Char → List Char → Bool
  | [], _ => true
  | _ :: _, [] => false
  | a :: as, b :: bs => a == b && leadsWith as bs

/-- Predicate `hasSeg pat s`: `pat` occurs contiguously inside `s`.  Models SQL
`LIKE '%pat%'` and Python's `pat in s`. -/
def hasSeg (pat : List Char) : List Char → Bool
  | [] => pat.isEmpty
  | b :: bs => leadsWith pat (b :: bs) || hasSeg pat bs

/-- String containment: `strContains s pat` holds when `pat` occurs inside
`s`. -/
def strContains (s pat : String) : Bool := hasSeg pat.data s.data

/-- Python's `str.lower()` (ASCII). -/
def lowerStr (s : String) : String := String.mk (s.data.map Char.toLower)

/-- Python's `str.upper()` (ASCII). -/
def upperStr (s : String) : String := String.mk (s.data.map Char.toUpper)

/-- Python's `str.split()` on spaces, with empty fragments dropped. -/
def wordsAux : List Char → List Char → List (List Char)
  | [], cur => [cur.reverse]
  | c :: cs, cur =>
    if c == ' ' then cur.reverse :: wordsAux cs []
    else wordsAux cs (c :: cur)

/-- Whitespace word split of a string. -/
def splitWords (s : String) : List String :=
  ((wordsAux s.data []).filter (· ≠ [])).map String.mk

/-- Value of a digit string, as in Python's `int(...)`. -/
def parseDigits (l : List Char) : ℕ :=
  l.foldl (fun acc c => acc * 10 + (c.toNat - 48)) 0

/-! ## Occupation group resolution (`src/utils/database.py`,
`get_occupation_group`)

The `occupations` table is a list of `(occupation_title, group_number)`
pairs in row order; `cursor.fetchone()` on `LIKE` is the first matching
row. -/

/-- The guard `occupation and len(occupation) >= 3 and
occupation[:-1].isdigit() and occupation[-1].isalpha()`. -/
def looksLikeGroupCode (occ : String) : Bool :=
  decide (3 ≤ occ.data.length) &&
    occ.data.dropLast.all Char.isDigit &&
    (match occ.data.getLast? with
     | some c => c.isAlpha
     | none => false)

/-- Embedding of `src/utils/database.py`, `get_occupation_group`: (a) parse a
`<digits><letter>` code of length ≥ 3 directly; (b) `stocker`/`sorter`
alias to group 360; (c) first row whose lowercased title contains the
lowercased occupation; (d) first word longer than 2 characters that some
title contains; otherwise the code's `ValueError` (`none`). -/
def get_occupation_group (table : List (String × ℕ)) (occ : String) : Option ℕ :=
  if looksLikeGroupCode occ then some (parseDigits occ.data.dropLast)
  else
    let occL := lowerStr occ
    if strContains occL "stocker" || strContains occL "sorter" then some 360
    else
      match table.find? (fun r => strContains (lowerStr r.1) occL) with
      | some r => some r.2
      | none =>
        (((splitWords occL).filter (fun w => decide (2 < w.data.length))).filterMap
          (fun w => (table.find? (fun r => strContains (lowerStr r.1) w)).map (·.2))).head?

/-- The group-code shortcut as the amended claim words it: the text is at
least two digits followed by one letter; the digits are the group. -/
def specGroupCode (occ : String) : Bool :=
  decide (2 ≤ occ.data.dropLast.length) &&
    occ.data.dropLast.all Char.isDigit &&
    (match occ.data.getLast? with
     | some c => c.isAlpha
     | none => false)

/-- Group resolution as the amended claim words it, differing from
`get_occupation_group` only in how the leading group-code test is
phrased. -/
def specResolveGroup (table : List (String × ℕ)) (occ : String) : Option ℕ :=
  if specGroupCode occ then some (parseDigits occ.data.dropLast)
  else
    let occL := lowerStr occ
    if strContains occL "stocker" || strContains occL "sorter" then some 360
    else
      match table.find? (fun r => strContains (lowerStr r.1) occL) with
      | some r => some r.2
      | none =>
        (((splitWords occL).filter (fun w => decide (2 < w.data.length))).filterMap
          (fun w => (table.find? (fun r => strContains (lowerStr r.1) w)).map (·.2))).head?


/-! ## Variant resolution (`src/utils/database.py`,
`get_variant_for_impairment`)

A variant-table row holds a `body_part` key and the per-group variant
letters as an association list (`group_XXX` columns); a missing or empty
entry models a `NULL`/empty cell, both falsy in the source. -/

/-- One row of the `variants` / `variants_2` tables. -/
structure VariantRow where
  body_part : String
  groups : List (ℕ × String)
deriving DecidableEq

/-- The `code_to_body_part` alias dictionary. -/
def codeToBodyPart (c : String) : String :=
  match [("SPINE-DRE-ROM", "SPINE"),
         ("PERIPH-SPINE", "SPINE"),
         ("PERIPH-UE", "ARM"),
         ("PERIPH-LE", "LEG"),
         ("ARM-AMPUT", "ARM"),
         ("ARM-GRIP/PINCH", "ARM"),
         ("SHOULDER-ROM", "SHOULDER"),
         ("ELBOW-ROM", "ELBOW"),
         ("WRIST-ROM", "WRIST"),
         ("LEG-AMPUT", "LEG")].lookup c with
  | some b => b
  | none => c

/-- The upper-extremity retry test:
`any(term in lookup_code.lower() for term in ["arm", "hand", "wrist", "elbow", "shoulder"])`. -/
def armish (s : String) : Bool :=
  ["arm", "hand", "wrist", "elbow", "shoulder"].any
    (fun t => strContains (lowerStr s) t)

/-- The lower-extremity retry test over `["leg", "knee", "ankle", "foot"]`. -/
def legish (s : String) : Bool :=
  ["leg", "knee", "ankle", "foot"].any (fun t => strContains (lowerStr s) t)

/-- The query `SELECT * FROM <variants> WHERE body_part = ?`, first row. -/
def exactRow (table : List VariantRow) (bp : String) : Option VariantRow :=
  table.find? (fun r => r.body_part == bp)

/-- The generic ARM/LEG retry query of the first lookup phase, which runs
while the connection is still open.  (The source repeats the same query
pattern a second time after `conn.close()`; that occurrence can never
return a row — see `get_variant_for_impairment`.) -/
def retryRow (table : List VariantRow) (bp : String) : Option VariantRow :=
  if armish bp then exactRow table "ARM"
  else if legish bp then exactRow table "LEG"
  else none

/-- The `variant_data.get(group_key)` read, with empty strings falsy as in
the source's `if not variant_label`. -/
def labelOf (r : VariantRow) (group_num : ℕ) : Option String :=
  match r.groups.lookup group_num with
  | some l => if l = "" then none else some l
  | none => none

/-- Embedding of `src/utils/database.py`, `get_variant_for_impairment`: pick the table
partition by `group_num >= 310`, alias the impairment code to a body-part
bucket, exact-match it (with the ARM/LEG retry when absent); with no row
at all return the default `{"variant_label": "G"}`.  With a row but no
usable group entry the source attempts the ARM/LEG retry a second time,
but by then `conn.close()` has already run, so for an arm/leg-bucket
lookup code `cursor.execute` raises
`sqlite3.ProgrammingError: Cannot operate on a closed database.` before
any row can be read; only a lookup code outside those buckets skips the
dead retry and reaches the `No variant found` `ValueError`. -/
def get_variant_for_impairment (variants variants_2 : List VariantRow)
    (group_num : ℕ) (impairment_code : String) : Except String String :=
  let table := if 310 ≤ group_num then variants_2 else variants
  let lookup_code := codeToBodyPart impairment_code
  let result :=
    match exactRow table lookup_code with
    | some r => some r
    | none => retryRow table lookup_code
  match result with
  | none => Except.ok "G"
  | some row =>
    match labelOf row group_num with
    | some l => Except.ok (upperStr l)
    | none =>
      if armish lookup_code || legish lookup_code then
        Except.error "Cannot operate on a closed database."
      else
        Except.error "No variant found for impairment code and group"

deriving instance DecidableEq for Except


/-! ## Report-processor pipeline (`src/utils/report_processor.py`,
`process_extracted_data`)

The per-impairment adjustment chain is parameterized by the two
database-backed adjustment functions (`get_occupational_adjusted_wpi` and
`get_age_adjusted_wpi` applied to the loaded tables), here abstract
functions `ℚ → ℚ`, since the tables themselves are external data. -/

/-- One extracted impairment record as consumed by
`process_extracted_data`. -/
structure Imp where
  wpi : ℚ
  apportionment : ℚ
  pain_addon : ℚ
deriving DecidableEq

/-- The assignment `pain_addon = min(imp.get("pain_addon", 0.0), 3.0)`: only the upper
bound is enforced on this path. -/
def impPain (i : Imp) : ℚ := min i.pain_addon 3

/-- The assignment `base_wpi = original_wpi + pain_addon`. -/
def impBase (i : Imp) : ℚ := i.wpi + impPain i

/-- The assignment `adjusted_wpi = base_wpi * 1.4` (no rounding on this path). -/
def impAdjusted (i : Imp) : ℚ := impBase i * 1.4

/-- The value `occupant_adjusted_wpi` via the occupational table. -/
def impOcc (occAdj : ℚ → ℚ) (i : Imp) : ℚ := occAdj (impAdjusted i)

/-- The value `age_adjusted_wpi` via the age table. -/
def impAge (occAdj ageAdj : ℚ → ℚ) (i : Imp) : ℚ := ageAdj (impOcc occAdj i)

/-- The assignment `apportioned_wpi = age_adjusted_wpi * (1 - apportionment/100)` when
`apportionment > 0`, else the age-adjusted value. -/
def impApportioned (occAdj ageAdj : ℚ → ℚ) (i : Imp) : ℚ :=
  if 0 < i.apportionment then impAge occAdj ageAdj i * (1 - i.apportionment / 100)
  else impAge occAdj ageAdj i

/-- The `no_apportionment_wpi_list` built by the processing loop. -/
def noAppList (occAdj ageAdj : ℚ → ℚ) : List Imp → List ℚ
  | [] => []
  | i :: is => impAge occAdj ageAdj i :: noAppList occAdj ageAdj is

/-- The `with_apportionment_wpi_list` built by the processing loop: only
impairments with `apportionment > 0` contribute. -/
def withAppList (occAdj ageAdj : ℚ → ℚ) : List Imp → List ℚ
  | [] => []
  | i :: is =>
    if 0 < i.apportionment then
      impApportioned occAdj ageAdj i :: withAppList occAdj ageAdj is
    else withAppList occAdj ageAdj is

/-- The assignment `with_apportionment_pd = combine_wpi_values(list) if list else None`. -/
def withApp_pd (occAdj ageAdj : ℚ → ℚ) (l : List Imp) : Option ℚ :=
  if withAppList occAdj ageAdj l = [] then none
  else some (combine_wpi_values (withAppList occAdj ageAdj l))

/-- The with-apportionment output slot:
`calculate_pd_payout(...) if with_apportionment_pd else None`, i.e. the
variant is emitted only when the combined value is truthy (a nonzero
number), and it is built from that combined percentage. -/
def withApp_result (occAdj ageAdj : ℚ → ℚ) (l : List Imp) : Option ℚ :=
  match withApp_pd occAdj ageAdj l with
  | some v => if v ≠ 0 then some v else none
  | none => none

/-- The with-apportionment list the claim describes: apportioned values
for apportioned impairments together with the full age-adjusted values of
all the others. -/
def claimWithAppList (occAdj ageAdj : ℚ → ℚ) (l : List Imp) : List ℚ :=
  l.map fun i =>
    if 0 < i.apportionment then impApportioned occAdj ageAdj i
    else impAge occAdj ageAdj i

/-! ## Rating-calculator per-impairment chain (`src/rating_calculator.py`,
`calculate_rating`) -/

/-- Negative-WPI handling of `calculate_rating`: `if part_wpi < 0:
part_wpi = abs(part_wpi)`. -/
def normalizeWpi (w : ℚ) : ℚ := if w < 0 then |w| else w

/-- Pain clamping of `calculate_rating`: out-of-range values are clamped
with `max(0, min(part_pain, 3))`. -/
def painAddonCalc (p : ℚ) : ℚ :=
  if p < 0 ∨ 3 < p then max 0 (min p 3) else p

/-- The per-body-part final value of `calculate_rating`: absolute WPI,
clamped pain, `round(base * 1.4, 1)`, then the occupational and age
adjustments, each falling back to its input when the lookup raises. -/
def rc_part_final (occT ageT : List TableRow) (variant : String) (age : ℤ)
    (w p : ℚ) : ℚ :=
  let adjusted := roundTo 1 ((normalizeWpi w + painAddonCalc p) * 1.4)
  let occ :=
    match get_occupational_adjusted_wpi occT variant adjusted with
    | Except.ok v => v
    | Except.error _ => adjusted
  match get_age_adjusted_wpi ageT age occ with
  | Except.ok v => v
  | Except.error _ => occ

/-! ## Helper lemmas -/

lemma combine_two_closed (a b : ℚ) :
    combine_two_values a b = roundTo 2 (100 * (1 - (1 - a / 100) * (1 - b / 100))) := by
  rcases le_total a b with h | h
  · simp only [combine_two_values, max_eq_right h, min_eq_left h]
    congr 1
    ring
  · simp only [combine_two_values, max_eq_left h, min_eq_right h]
    congr 1
    ring

lemma payment_weeks_eq_mul (p : ℚ) :
    calculate_payment_weeks p = p * specTierMult p := by
  unfold calculate_payment_weeks specTierMult
  split_ifs <;> ring

lemma specTierMult_nonneg (p : ℚ) : 0 ≤ specTierMult p := by
  unfold specTierMult
  split_ifs <;> norm_num

lemma specTierMult_mono {a b : ℚ} (h : a ≤ b) : specTierMult a ≤ specTierMult b := by
  unfold specTierMult
  split_ifs <;> linarith

lemma withAppList_filterMap (f g : ℚ → ℚ) (l : List Imp) :
    withAppList f g l =
      (l.filter fun i => decide (0 < i.apportionment)).map (impApportioned f g) := by
  induction l with
  | nil => rfl
  | cons i is ih =>
    by_cases h : 0 < i.apportionment <;>
      simp [withAppList, List.filter_cons, h, ih]

lemma withAppList_nil_iff (f g : ℚ → ℚ) (l : List Imp) :
    withAppList f g l = [] ↔ ¬ ∃ i ∈ l, 0 < i.apportionment := by
  induction l with
  | nil => simp [withAppList]
  | cons i is ih =>
    by_cases h : 0 < i.apportionment <;> simp [withAppList, h, ih]

lemma argmaxLe_none_spec (t : ℚ) (rows : List TableRow)
    (h : argmaxLe t rows = none) : ∀ q ∈ rows, t < q.key := by
  induction rows with
  | nil => intro q hq; simp at hq
  | cons a as ih =>
    intro q hq
    unfold argmaxLe at h
    cases hm : argmaxLe t as with
    | none =>
      simp only [hm] at h
      by_cases ha : a.key ≤ t
      · rw [if_pos ha] at h; exact Option.noConfusion h
      · rw [if_neg ha] at h
        rcases List.mem_cons.mp hq with rfl | hq'
        · exact lt_of_not_le ha
        · exact ih hm q hq'
    | some b =>
      simp only [hm] at h
      by_cases hc : a.key ≤ t ∧ b.key < a.key
      · rw [if_pos hc] at h; exact Option.noConfusion h
      · rw [if_neg hc] at h; exact Option.noConfusion h

lemma argmaxLe_some_spec (t : ℚ) :
    ∀ (rows : List TableRow) (r : TableRow), argmaxLe t rows = some r →
      r ∈ rows ∧ r.key ≤ t ∧ ∀ q ∈ rows, q.key ≤ t → q.key ≤ r.key := by
  intro rows
  induction rows with
  | nil => intro r hr; simp [argmaxLe] at hr
  | cons a as ih =>
    intro r hr
    unfold argmaxLe at hr
    cases hm : argmaxLe t as with
    | none =>
      simp only [hm] at hr
      by_cases ha : a.key ≤ t
      · rw [if_pos ha] at hr
        cases hr
        refine ⟨List.mem_cons_self a as, ha, ?_⟩
        intro q hq hqt
        rcases List.mem_cons.mp hq with rfl | hq'
        · exact le_refl _
        · exact absurd hqt (not_le_of_lt (argmaxLe_none_spec t as hm q hq'))
      · rw [if_neg ha] at hr
        exact Option.noConfusion hr
    | some b =>
      simp only [hm] at hr
      obtain ⟨hbmem, hbt, hbmax⟩ := ih b hm
      by_cases hc : a.key ≤ t ∧ b.key < a.key
      · rw [if_pos hc] at hr
        cases hr
        refine ⟨List.mem_cons_self a as, hc.1, ?_⟩
        intro q hq hqt
        rcases List.mem_cons.mp hq with rfl | hq'
        · exact le_refl _
        · exact le_trans (hbmax q hq' hqt) (le_of_lt hc.2)
      · rw [if_neg hc] at hr
        cases hr
        refine ⟨List.mem_cons_of_mem a hbmem, hbt, ?_⟩
        intro q hq hqt
        rcases List.mem_cons.mp hq with rfl | hq'
        · by_contra hlt
          exact hc ⟨hqt, lt_of_not_le hlt⟩
        · exact hbmax q hq' hqt

lemma argminRow_some_spec :
    ∀ (rows : List TableRow) (r : TableRow), argminRow rows = some r →
      r ∈ rows ∧ ∀ q ∈ rows, r.key ≤ q.key := by
  intro rows
  induction rows with
  | nil => intro r hr; simp [argminRow] at hr
  | cons a as ih =>
    intro r hr
    unfold argminRow at hr
    cases hm : argminRow as with
    | none =>
      simp only [hm] at hr
      cases hr
      have hnil : as = [] := by
        cases as with
        | nil => rfl
        | cons b bs =>
          exfalso
          unfold argminRow at hm
          cases hmb : argminRow bs with
          | none => simp only [hmb] at hm; exact Option.noConfusion hm
          | some c =>
            simp only [hmb] at hm
            by_cases hc : b.key < c.key
            · rw [if_pos hc] at hm; exact Option.noConfusion hm
            · rw [if_neg hc] at hm; exact Option.noConfusion hm
      subst hnil
      exact ⟨List.mem_cons_self _ _, by intro q hq; rcases List.mem_cons.mp hq with rfl | hq' <;> simp_all⟩
    | some b =>
      simp only [hm] at hr
      obtain ⟨hbmem, hbmin⟩ := ih b hm
      by_cases hc : a.key < b.key
      · rw [if_pos hc] at hr
        cases hr
        refine ⟨List.mem_cons_self _ _, ?_⟩
        intro q hq
        rcases List.mem_cons.mp hq with rfl | hq'
        · exact le_refl _
        · exact le_trans (le_of_lt hc) (hbmin q hq')
      · rw [if_neg hc] at hr
        cases hr
        refine ⟨List.mem_cons_of_mem a hbmem, ?_⟩
        intro q hq
        rcases List.mem_cons.mp hq with rfl | hq'
        · exact le_of_not_lt hc
        · exact hbmin q hq'

lemma argminRow_none_iff (rows : List TableRow) :
    argminRow rows = none ↔ rows = [] := by
  cases rows with
  | nil => simp [argminRow]
  | cons a as =>
    simp only [argminRow]
    cases hm : argminRow as with
    | none => simp
    | some b =>
      by_cases hc : a.key < b.key
      · simp [hc]
      · simp [hc]

/-! ## Claim theorems -/

/-- Claim C1, amended: `combine_wpi_values` sorts the values in descending
order and folds the pairwise rule `C(a,b) = a + b(1 − a/100)`, rounding
every pairwise result to 2 decimals; a singleton is returned unrounded and
the empty list gives 0.  For a two-element list this coincides with the
closed form `100 × (1 − Π(1 − vᵢ/100))` rounded once at the end. -/
theorem C1_pairwise_matches_closed_form_on_pairs :
    (∀ a b : ℚ, combine_wpi_values [a, b] = roundTo 2 (closedForm [a, b]))
    ∧ (∀ x : ℚ, combine_wpi_values [x] = x)
    ∧ combine_wpi_values [] = 0 := by
  refine ⟨?_, fun x => rfl, rfl⟩
  intro a b
  have hcf : closedForm [a, b] = 100 * (1 - (1 - a / 100) * (1 - b / 100)) := by
    simp [closedForm]
  rw [hcf]
  by_cases hba : b ≤ a
  · simp only [combine_wpi_values, List.insertionSort, List.orderedInsert,
      if_pos hba, List.foldl]
    exact combine_two_closed a b
  · simp only [combine_wpi_values, List.insertionSort, List.orderedInsert,
      if_neg hba, List.foldl]
    rw [combine_two_closed b a]
    congr 1
    ring

/-- Claim C1, counterexample: on `[3.125, 3.125, 3.125]` the code's
per-step rounding gives 9.08, while the closed form rounded once at the
end gives 9.09. -/
theorem C1_counterexample :
    combine_wpi_values [3.125, 3.125, 3.125] = 9.08 ∧
    roundTo 2 (closedForm [3.125, 3.125, 3.125]) = 9.09 ∧
    (9.08 : ℚ) ≠ 9.09 := by
  refine ⟨?_, ?_, by norm_num⟩
  · norm_num [combine_wpi_values, List.insertionSort, List.orderedInsert,
      combine_two_values, roundTo, rnd]
  · norm_num [closedForm, roundTo, rnd]

/-- Claim C3, amended: on the `process_extracted_data` path only the upper
bound 3 is enforced on the pain add-on (`min(pain_addon, 3.0)`), so a
negative pain add-on passes through into `base_wpi`; `calculate_rating`
clamps to the full interval `[0, 3]`. -/
theorem C3_pain_clamp :
    (∀ i : Imp, impPain i ≤ 3)
    ∧ impPain { wpi := 10, apportionment := 0, pain_addon := -1 } = -1
    ∧ (∀ p : ℚ, painAddonCalc p = max 0 (min p 3))
    ∧ (∀ p : ℚ, 0 ≤ painAddonCalc p ∧ painAddonCalc p ≤ 3) := by
  refine ⟨fun i => min_le_right _ _, by norm_num [impPain], ?_, ?_⟩
  · intro p
    unfold painAddonCalc
    rcases lt_or_le p 0 with h | h
    · rw [if_pos (Or.inl h)]
    · rcases le_or_lt p 3 with h3 | h3
      · rw [if_neg (by push_neg; exact ⟨h, h3⟩)]
        rw [min_eq_left h3, max_eq_right h]
      · rw [if_pos (Or.inr h3)]
  · intro p
    unfold painAddonCalc
    split_ifs with h
    · constructor
      · exact le_max_left _ _
      · exact max_le (by norm_num) (min_le_right _ _)
    · push_neg at h
      exact ⟨h.1, h.2⟩

/-- Claim C3, counterexample: an impairment with `pain_addon = -1` is not
raised to 0 by `process_extracted_data`; its `base_wpi` is `10 + (-1) = 9`
rather than the 10 the claim's clamp would give. -/
theorem C3_counterexample :
    impBase { wpi := 10, apportionment := 0, pain_addon := -1 } = 9 ∧
    (9 : ℚ) ≠ 10 := by
  constructor
  · norm_num [impBase, impPain]
  · norm_num

/-- Claim C6, confirmed: `calculate_payment_weeks` is the claimed tiered
multiplier (`<10 → ×4`, `<24.75 → ×5`, `<29.75 → ×6`, `<49.75 → ×7`,
`<69.75 → ×8`, otherwise `×9`), and in particular `weeks(9.9) = 39.6` and
`weeks(10) = 50`. -/
theorem C6_payment_weeks_tiers :
    (∀ p : ℚ, calculate_payment_weeks p = p * specTierMult p)
    ∧ calculate_payment_weeks 9.9 = 39.6
    ∧ calculate_payment_weeks 10 = 50 := by
  refine ⟨payment_weeks_eq_mul, ?_, ?_⟩
  · norm_num [calculate_payment_weeks]
  · norm_num [calculate_payment_weeks]

/-- Claim C9, confirmed: `calculate_payment_weeks` is monotone on
non-negative percentages, across tier boundaries included. -/
theorem C9_payment_weeks_monotone (a b : ℚ) (h0 : 0 ≤ a) (hab : a ≤ b) :
    calculate_payment_weeks a ≤ calculate_payment_weeks b := by
  rw [payment_weeks_eq_mul, payment_weeks_eq_mul]
  have hb : 0 ≤ b := le_trans h0 hab
  calc a * specTierMult a
      ≤ b * specTierMult a := by
        exact mul_le_mul_of_nonneg_right hab (specTierMult_nonneg a)
    _ ≤ b * specTierMult b := by
        exact mul_le_mul_of_nonneg_left (specTierMult_mono hab) hb

/-- Witness for C9 at the ×4/×5 tier boundary. -/
theorem C9_witness :
    0 ≤ (9.9 : ℚ) ∧ (9.9 : ℚ) ≤ 10 ∧
    calculate_payment_weeks 9.9 ≤ calculate_payment_weeks 10 :=
  ⟨by norm_num, by norm_num, C9_payment_weeks_monotone 9.9 10 (by norm_num) (by norm_num)⟩

/-- Claim C10, confirmed: `calculate_rating` replaces a negative WPI by
its absolute value and computes the same per-impairment final value it
would have computed for the positive WPI; the input is not rejected. -/
theorem C10_negative_wpi_absolute_value (occT ageT : List TableRow)
    (variant : String) (age : ℤ) (w p : ℚ) (h : w < 0) :
    rc_part_final occT ageT variant age w p =
      rc_part_final occT ageT variant age (-w) p := by
  have hn : normalizeWpi w = normalizeWpi (-w) := by
    unfold normalizeWpi
    rw [if_pos h, if_neg (by linarith : ¬ (-w < 0)), abs_of_neg h]
  unfold rc_part_final
  rw [hn]

/-- Witness for C10 at WPI −5. -/
theorem C10_witness :
    (-5 : ℚ) < 0 ∧
    rc_part_final [] [] "g" 40 (-5) 0 = rc_part_final [] [] "g" 40 5 0 :=
  ⟨by norm_num, C10_negative_wpi_absolute_value [] [] "g" 40 (-5) 0 (by norm_num)⟩

/-- Claim C2, amended: the with-apportionment list contains only the
apportioned values of impairments with `apportionment > 0` — the other
impairments of the batch are excluded, not carried at full value — and the
with-apportionment result is emitted iff at least one impairment has
`apportionment > 0` and the combined apportioned value is nonzero (a
combined value of 0 is falsy and suppresses the variant). -/
theorem C2_with_apportionment_semantics (f g : ℚ → ℚ) (l : List Imp) :
    (withApp_result f g l ≠ none ↔
      ((∃ i ∈ l, 0 < i.apportionment) ∧
        combine_wpi_values (withAppList f g l) ≠ 0))
    ∧ withAppList f g l =
        (l.filter fun i => decide (0 < i.apportionment)).map (impApportioned f g) := by
  refine ⟨?_, withAppList_filterMap f g l⟩
  unfold withApp_result withApp_pd
  by_cases hl : withAppList f g l = []
  · have hex := (withAppList_nil_iff f g l).mp hl
    simp [hl, hex]
  · have hex : ∃ i ∈ l, 0 < i.apportionment := by
      by_contra hc
      exact hl ((withAppList_nil_iff f g l).mpr hc)
    simp only [if_neg hl]
    by_cases hv : combine_wpi_values (withAppList f g l) = 0
    · simp [hv, hex]
    · simp [hv, hex]

/-- Claim C2, counterexample (with identity adjustment tables): in the
batch `[{wpi 10, apportionment 50}, {wpi 20, apportionment 0}]` the code's
with-apportionment result is 7 — the unapportioned impairment's full
age-adjusted value 28 is not aggregated, while the claim's aggregation
gives 33.04; and the batch `[{wpi 10, apportionment 100}]` has an
impairment with `apportionment > 0` yet its with-apportionment result is
absent because the combined value 0 is falsy. -/
theorem C2_counterexample :
    withApp_result id id
        [{ wpi := 10, apportionment := 50, pain_addon := 0 },
         { wpi := 20, apportionment := 0, pain_addon := 0 }] = some 7 ∧
    combine_wpi_values (claimWithAppList id id
        [{ wpi := 10, apportionment := 50, pain_addon := 0 },
         { wpi := 20, apportionment := 0, pain_addon := 0 }]) = 33.04 ∧
    (7 : ℚ) ≠ 33.04 ∧
    (0 : ℚ) < 100 ∧
    withApp_result id id
        [{ wpi := 10, apportionment := 100, pain_addon := 0 }] = none := by
  refine ⟨?_, ?_, by norm_num, by norm_num, ?_⟩
  · norm_num [withApp_result, withApp_pd, withAppList, impApportioned, impAge,
      impOcc, impAdjusted, impBase, impPain, combine_wpi_values, min_def]
  · norm_num [claimWithAppList, impApportioned, impAge, impOcc, impAdjusted,
      impBase, impPain, combine_wpi_values, List.insertionSort,
      List.orderedInsert, combine_two_values, roundTo, rnd, min_def]
  · norm_num [withApp_result, withApp_pd, withAppList, impApportioned, impAge,
      impOcc, impAdjusted, impBase, impPain, combine_wpi_values, min_def]

/-- Claim C4, confirmed: the shared row-selection of the occupational and
age adjustment lookups picks the row with the largest key `≤` target, and
falls back to the row with the smallest key when the target is below every
key. -/
theorem C4_floor_lookup (rows : List TableRow) (t : ℚ) (h : rows ≠ []) :
    ∃ r, floorRow rows t = some r ∧ r ∈ rows ∧
      ((∃ q ∈ rows, q.key ≤ t) →
        r.key ≤ t ∧ ∀ q ∈ rows, q.key ≤ t → q.key ≤ r.key) ∧
      ((∀ q ∈ rows, t < q.key) → ∀ q ∈ rows, r.key ≤ q.key) := by
  unfold floorRow
  cases hm : argmaxLe t rows with
  | some r =>
    obtain ⟨hmem, hle, hmax⟩ := argmaxLe_some_spec t rows r hm
    exact ⟨r, rfl, hmem, fun _ => ⟨hle, hmax⟩,
      fun hall => absurd hle (not_le_of_lt (hall r hmem))⟩
  | none =>
    cases hmin : argminRow rows with
    | none => exact absurd ((argminRow_none_iff rows).mp hmin) h
    | some r =>
      obtain ⟨hmem, hmin'⟩ := argminRow_some_spec rows r hmin
      refine ⟨r, rfl, hmem, ?_, fun _ => hmin'⟩
      rintro ⟨q, hq, hqt⟩
      exact absurd hqt (not_le_of_lt (argmaxLe_none_spec t rows hm q hq))

/-- Witness for C4: a one-row table with key 5 and target 0 exercises the
below-all-keys fallback. -/
theorem C4_witness :
    ∃ r, floorRow ([((5 : ℚ), [("c", (8 : ℚ))])] : List TableRow) 0 = some r ∧
      r ∈ ([((5 : ℚ), [("c", (8 : ℚ))])] : List TableRow) ∧
      ((∃ q ∈ ([((5 : ℚ), [("c", (8 : ℚ))])] : List TableRow), q.key ≤ 0) →
        r.key ≤ 0 ∧
          ∀ q ∈ ([((5 : ℚ), [("c", (8 : ℚ))])] : List TableRow),
            q.key ≤ 0 → q.key ≤ r.key) ∧
      ((∀ q ∈ ([((5 : ℚ), [("c", (8 : ℚ))])] : List TableRow), 0 < q.key) →
        ∀ q ∈ ([((5 : ℚ), [("c", (8 : ℚ))])] : List TableRow), r.key ≤ q.key) :=
  C4_floor_lookup ([((5 : ℚ), [("c", (8 : ℚ))])] : List TableRow) 0
    (List.cons_ne_nil _ _)

/-- Claim C5, amended: when no variant-table row matches the body-part
bucket — even after the (pre-close, live) ARM/LEG retry —
`get_variant_for_impairment` does not fail: it silently returns the
default variant "G" in the same shape as a found variant.  When a row
matches but carries no variant letter for the group, the function does
fail, but for an arm/leg-bucket lookup code the second retry executes on
the already-closed connection and raises
`sqlite3.ProgrammingError: Cannot operate on a closed database.`; only a
lookup code outside those buckets reaches the variant-not-found
`ValueError`.  `calculate_rating` catches any of these errors, substitutes
"G" with a logged warning, and records only the resulting letter — not the
fact of substitution — in the per-impairment detail. -/
theorem C5_variant_default_policy (v1 v2 : List VariantRow) (g : ℕ) (code : String) :
    (exactRow (if 310 ≤ g then v2 else v1) (codeToBodyPart code) = none →
     retryRow (if 310 ≤ g then v2 else v1) (codeToBodyPart code) = none →
     get_variant_for_impairment v1 v2 g code = Except.ok "G")
    ∧ (∀ row, exactRow (if 310 ≤ g then v2 else v1) (codeToBodyPart code) = some row →
       labelOf row g = none →
       (armish (codeToBodyPart code) || legish (codeToBodyPart code)) = true →
       get_variant_for_impairment v1 v2 g code =
         Except.error "Cannot operate on a closed database.")
    ∧ (∀ row, exactRow (if 310 ≤ g then v2 else v1) (codeToBodyPart code) = some row →
       labelOf row g = none →
       (armish (codeToBodyPart code) || legish (codeToBodyPart code)) = false →
       get_variant_for_impairment v1 v2 g code =
         Except.error "No variant found for impairment code and group") := by
  refine ⟨?_, ?_, ?_⟩
  · intro h1 h2
    unfold get_variant_for_impairment
    simp only [h1, h2]
  · intro row h1 h2 h3
    unfold get_variant_for_impairment
    simp only [h1, h2, h3, if_true]
  · intro row h1 h2 h3
    unfold get_variant_for_impairment
    simp only [h1, h2, h3, Bool.false_eq_true, if_false]

/-- Witness for C5: an empty table yields the silent "G"; a WRIST row with
an empty group cell (and no ARM row) hits the closed-connection error of
the dead retry; a SPINE row with an empty group cell yields the
variant-not-found error. -/
theorem C5_witness :
    get_variant_for_impairment [] [] 5 "HEAD" = Except.ok "G" ∧
    get_variant_for_impairment [⟨"WRIST", []⟩] [] 5 "WRIST" =
      Except.error "Cannot operate on a closed database." ∧
    get_variant_for_impairment [⟨"SPINE", []⟩] [] 5 "SPINE" =
      Except.error "No variant found for impairment code and group" :=
  ⟨(C5_variant_default_policy [] [] 5 "HEAD").1 (by decide) (by decide),
   (C5_variant_default_policy [⟨"WRIST", []⟩] [] 5 "WRIST").2.1 ⟨"WRIST", []⟩
     (by decide) (by decide) (by decide),
   (C5_variant_default_policy [⟨"SPINE", []⟩] [] 5 "SPINE").2.2 ⟨"SPINE", []⟩
     (by decide) (by decide) (by decide)⟩

/-- Claim C5, counterexample: with no matching body-part row at all (here:
empty tables, the report path's impairment code "15.03.02.05"), variant
resolution returns `{"variant_label": "G"}` and raises no error, contrary
to the claimed VariantNotFound failure. -/
theorem C5_counterexample :
    get_variant_for_impairment [] [] 380 "15.03.02.05" = Except.ok "G" ∧
    ∀ e : String, get_variant_for_impairment [] [] 380 "15.03.02.05" ≠ Except.error e := by
  have h : get_variant_for_impairment [] [] 380 "15.03.02.05" = Except.ok "G" := by
    decide
  exact ⟨h, fun e hc => by rw [h] at hc; exact Except.noConfusion hc⟩

/-- Claim C7, amended: the age brackets match the claimed fixed ranges for
ages in `[0, 150)` — in particular ages 21, 22, 61 and 62 select
"21_and_under", "22_to_26", "57_to_61" and "62_and_over" — but outside
`0 ≤ age < 150` no bracket matches and the lookup raises instead of
selecting a bracket. -/
theorem C7_age_brackets :
    (∀ age : ℤ, 0 ≤ age → age < 150 → ageColumn age = some (specAgeBracket age))
    ∧ ageColumn 21 = some "21_and_under"
    ∧ ageColumn 22 = some "22_to_26"
    ∧ ageColumn 61 = some "57_to_61"
    ∧ ageColumn 62 = some "62_and_over" := by
  refine ⟨?_, by decide, by decide, by decide, by decide⟩
  intro age h0 h1
  interval_cases age <;> decide

/-- Witness for C7 at age 45. -/
theorem C7_witness :
    0 ≤ (45 : ℤ) ∧ (45 : ℤ) < 150 ∧ ageColumn 45 = some (specAgeBracket 45) :=
  ⟨by decide, by decide, C7_age_brackets.1 45 (by decide) (by decide)⟩

/-- Claim C7, counterexample: age 150 is `≥ 62` yet selects no bracket
(the top range is `62 ≤ age < 150`), and age −1 is `≤ 21` yet selects no
bracket (the bottom range is `0 ≤ age < 22`); in both cases
`get_age_adjusted_wpi` raises its no-age-bracket error instead. -/
theorem C7_counterexample :
    ((62 : ℤ) ≤ 150 ∧ ageColumn 150 = none ∧ ageColumn 150 ≠ some "62_and_over")
    ∧ ((-1 : ℤ) ≤ 21 ∧ ageColumn (-1) = none ∧ ageColumn (-1) ≠ some "21_and_under") := by
  decide

/-- Claim C8, amended: group resolution parses the `<digits><letter>` form
only when the text has length at least 3 — at least two digits before the
letter — and otherwise proceeds through the alias, substring and
long-word stages exactly as claimed, failing when nothing matches. -/
theorem C8_group_resolution_order (table : List (String × ℕ)) (occ : String) :
    get_occupation_group table occ = specResolveGroup table occ := by
  have h : looksLikeGroupCode occ = specGroupCode occ := by
    unfold looksLikeGroupCode specGroupCode
    have hlen : decide (3 ≤ occ.data.length) = decide (2 ≤ occ.data.dropLast.length) :=
      decide_eq_decide.mpr (by rw [List.length_dropLast]; omega)
    rw [hlen]
  unfold get_occupation_group specResolveGroup
  rw [h]

/-- Claim C8, counterexample: "1A" is digits followed by a single letter,
so the claim parses it as group 1; the code's shortcut requires length at
least 3, and with a directory containing only "carpenter" the remaining
stages find nothing, so resolution fails instead. -/
theorem C8_counterexample :
    get_occupation_group [("carpenter", 380)] "1A" = none ∧
    ('1'.isDigit = true) ∧ ('A'.isAlpha = true) ∧
    (none : Option ℕ) ≠ some 1 := by
  decide
